import Mathlib

/-!
Verification of `AudioSDRpreProcessor` (src/src/AudioSDRpreProcessor.cpp):
a shallow embedding of the per-tick `update` routine — the single-sample
delay compensator, the spectral imbalance detector with its hysteresis
state machine, the I/Q channel swap, and the block acquisition/release
discipline — together with theorems about the embedded code.

Modelling conventions:
* A sample block is a function `ℕ → ℤ` (indices 0‥127 carry the 128
  int16 samples; the code only copies samples, so plain `ℤ` is exact).
* The float buffer is a function `ℕ → ℚ` (indices 0‥255 are the 256
  floats the code writes; the comparisons, sums and divisions the
  detector performs are modelled exactly over `ℚ`).
* The 128-point complex FFT (`arm_cfft_f32`) is an external primitive
  and enters as an arbitrary transform parameter
  `F : (ℕ → ℚ) → (ℕ → ℚ)`; `arm_cmplx_mag_squared_f32` is embedded
  (it writes squared magnitudes into elements 0‥127 and leaves the
  rest of the buffer as it was).
* A block that failed to arrive is `none`; the tick takes the two
  optional blocks and returns the new state and the emitted pair.
-/

namespace AudioSDRpreProcessor

/-- Modelled from the spec: the block length `n_block` is declared in the
header `AudioSDRpreProcessor.h`, which is not among the sources; the spec
fixes a SampleBlock at 128 samples, matching the literal 128 used by the
detector and swap loops in the source. -/
def n_block : ℕ := 128

/-- `n_FFT` from the source (line 99): length of the power spectrum. -/
def n_FFT : ℕ := 128

/-- `min` from the source (line 100): the guard half-width of spectral
lines around DC ignored by the scan loop.  (Named `minBin` here because
`min` would clash with the library's `min`.) -/
def minBin : ℕ := 5

/-- The detector thresholds, members declared in the missing header;
their values are not fixed by the sources, so they stay parameters.
Field names are the source's. -/
structure Config where
  spectralAvgMultiplier : ℚ
  minImbalanceRatio : ℚ
  maxFailureCount : ℤ
  maxSuccessCount : ℤ
deriving DecidableEq

/-- The mutable members of `AudioSDRpreProcessor` that `update` reads and
writes.  Field names are the source's. -/
structure PreProcState where
  I2Scorrection : ℤ
  savedSample : ℤ
  autoDetectFlag : Bool
  failureCount : ℤ
  successCount : ℤ
  IQswap : Bool
deriving DecidableEq

/-- The compensator's shift loop (lines 74‑75 / 82‑83):
`for (int i = k; i > 0; i--) data[i] = data[i-1]`, iterating downward from
`i = k`, so each write copies the still-original lower neighbour. -/
def delayLoop (b : ℕ → ℤ) : ℕ → (ℕ → ℤ)
  | 0 => b
  | k + 1 => delayLoop (fun j => if j = k + 1 then b k else b j) k

/-- Lines 71‑86: the Teensy single-sample delay compensation.  Given the
mode (`I2Scorrection`), the carry (`savedSample`) and the block pair,
returns the updated pair and the new carry.
Note line 84: in the `-1` (DelayQ) branch the source writes the carried
sample into `blockI->data[0]` while shifting `blockQ`. -/
def compensate (mode : ℤ) (saved : ℤ) (bI bQ : ℕ → ℤ) :
    ((ℕ → ℤ) × (ℕ → ℤ)) × ℤ :=
  if mode = 1 then
    let temp := bI (n_block - 1)
    let bI2 := delayLoop bI (n_block - 1)
    (((fun j => if j = 0 then saved else bI2 j), bQ), temp)
  else if mode = -1 then
    let temp := bQ (n_block - 1)
    let bQ2 := delayLoop bQ (n_block - 1)
    (((fun j => if j = 0 then saved else bI j), bQ2), temp)
  else ((bI, bQ), saved)

/-- Lines 103‑108: interleave the normalized samples into the float
buffer, `buffer[2i] = I[i]/32767`, `buffer[2i+1] = Q[i]/32767` for
`i < 128`.  Indices from 256 on are outside the region the code writes;
they are irrelevant to every theorem below (the transform parameter is
arbitrary) and are set to 0. -/
def fillBuffer (bI bQ : ℕ → ℤ) : ℕ → ℚ :=
  fun j =>
    if j < 256 then
      if j % 2 = 0 then (bI (j / 2) : ℚ) / 32767 else (bQ (j / 2) : ℚ) / 32767
    else 0

/-- Line 111, `arm_cmplx_mag_squared_f32(buffer, buffer, 128)`: elements
0‥127 become the squared magnitudes of the 128 complex values; the rest
of the buffer keeps its previous (stale) contents. -/
def magSquared (b : ℕ → ℚ) : ℕ → ℚ :=
  fun i => if i < 128 then b (2 * i) * b (2 * i) + b (2 * i + 1) * b (2 * i + 1) else b i

/-- The power buffer a tick presents to the detector: normalize, apply
the external transform `F` (the black-box `arm_cfft_f32`), square the
magnitudes. -/
def tickPower (F : (ℕ → ℚ) → (ℕ → ℚ)) (bI bQ : ℕ → ℤ) : ℕ → ℚ :=
  magSquared (F (fillBuffer bI bQ))

/-- One iteration of the scan loop (lines 116‑125): accumulate the
average, and take the line as the new maximum when its power strictly
exceeds the maximum so far.  The accumulator is
`(average_power, maximum_power, maxLine)`. -/
def scanStep (pw : ℕ → ℚ) (acc : ℚ × ℚ × ℕ) (i : ℕ) : ℚ × ℚ × ℕ :=
  if pw i > acc.2.1 then (acc.1 + pw i, pw i, i) else (acc.1 + pw i, acc.2.1, acc.2.2)

/-- The indices the scan loop visits: `i` from `min` to `n_FFT - min`
exclusive, i.e. 5‥122. -/
def scanList : List ℕ := List.range' minBin (n_FFT - 2 * minBin)

/-- Lines 114‑125 as a whole: starting from
`average_power = 0, maximum_power = 0, maxLine = 0`. -/
def scan (pw : ℕ → ℚ) : ℚ × ℚ × ℕ := scanList.foldl (scanStep pw) (0, 0, 0)

/-- `maximum_power` after the scan. -/
def maxPower (pw : ℕ → ℚ) : ℚ := (scan pw).2.1

/-- `maxLine` after the scan. -/
def maxLine (pw : ℕ → ℚ) : ℕ := (scan pw).2.2

/-- Line 127: `average_power /= (n_FFT - 2*min)`. -/
def avgPower (pw : ℕ → ℚ) : ℚ := (scan pw).1 / 118

/-- The buffer index the ratio of line 129 reads: `n_FFT - maxLine`. -/
def mirrorIndex (pw : ℕ → ℚ) : ℕ := n_FFT - maxLine pw

/-- Line 129: `imbalance_ratio = maximum_power / buffer[n_FFT - maxLine]`,
computed before the strength gate of line 131 is tested. -/
def imbalance_ratio (pw : ℕ → ℚ) : ℚ := maxPower pw / pw (mirrorIndex pw)

/-- Lines 142‑144: step the correction mode forward, wrapping past +1
back to −1. -/
def cycleNext (m : ℤ) : ℤ := if m + 1 > 1 then -1 else m + 1

/-- Lines 139‑147: when the failure streak exceeds its limit, advance the
mode and reset both counters; otherwise leave the triple
`(failureCount, successCount, I2Scorrection)` alone. -/
def advanceCheck (maxFailureCount : ℤ) (x : ℤ × ℤ × ℤ) : ℤ × ℤ × ℤ :=
  if x.1 > maxFailureCount then (0, 0, cycleNext x.2.2) else x

/-- Lines 99‑153, the detector and its state machine, as a function of
the power buffer: under the strength gate, update the failure counter by
the verdict, run the advance check, then increment the success counter;
finally freeze detection once the success counter exceeds its limit. -/
def detectorUpdate (cfg : Config) (pw : ℕ → ℚ) (s : PreProcState) : PreProcState :=
  let s1 :=
    if maxPower pw > cfg.spectralAvgMultiplier * avgPower pw then
      let fc : ℤ := if imbalance_ratio pw < cfg.minImbalanceRatio then s.failureCount + 1 else 0
      let y := advanceCheck cfg.maxFailureCount (fc, s.successCount, s.I2Scorrection)
      { s with failureCount := y.1, successCount := y.2.1 + 1, I2Scorrection := y.2.2 }
    else s
  if s1.successCount > cfg.maxSuccessCount then { s1 with autoDetectFlag := false } else s1

/-- Lines 159‑167: exchange the samples of the two blocks at every index
below 128. -/
def swapBlocks (p : (ℕ → ℤ) × (ℕ → ℤ)) : (ℕ → ℤ) × (ℕ → ℤ) :=
  ((fun i => if i < 128 then p.2 i else p.1 i),
   (fun i => if i < 128 then p.1 i else p.2 i))

/-- The power buffer the detector sees on a tick whose incoming blocks
are `bI, bQ`: the compensator runs first (lines 71‑86), so the spectrum
is taken over the compensated pair. -/
def tickPw (F : (ℕ → ℚ) → (ℕ → ℚ)) (s : PreProcState) (bI bQ : ℕ → ℤ) : ℕ → ℚ :=
  tickPower F ((compensate s.I2Scorrection s.savedSample bI bQ).1).1
    ((compensate s.I2Scorrection s.savedSample bI bQ).1).2

/-- Lines 49‑173, `AudioSDRpreProcessor::update`: one tick.  Returns the
new state and the emitted block pair (`none` when either incoming block
was unavailable, the early return of lines 54‑61). -/
def update (cfg : Config) (F : (ℕ → ℚ) → (ℕ → ℚ)) (s : PreProcState)
    (inI inQ : Option (ℕ → ℤ)) :
    PreProcState × Option ((ℕ → ℤ) × (ℕ → ℤ)) :=
  match inI, inQ with
  | some bI, some bQ =>
    let c := compensate s.I2Scorrection s.savedSample bI bQ
    let s1 : PreProcState := { s with savedSample := c.2 }
    let s2 := if s1.autoDetectFlag then detectorUpdate cfg (tickPw F s bI bQ) s1 else s1
    (s2, some (if s2.IQswap then swapBlocks c.1 else c.1))
  | _, _ => (s, none)

/-- How many times each channel's block is released during the tick, per
the source's exit paths: the early return (lines 56‑59) releases exactly
the blocks that were acquired, the normal path (lines 171‑172) releases
both. -/
def releaseCount (inI inQ : Option (ℕ → ℤ)) : ℕ × ℕ :=
  match inI, inQ with
  | some _, some _ => (1, 1)
  | some _, none => (1, 0)
  | none, some _ => (0, 1)
  | none, none => (0, 0)

/-- Lines 177‑184: enable auto detection. -/
def startAutoI2SerrorDetection (s : PreProcState) : PreProcState :=
  { s with autoDetectFlag := true, I2Scorrection := 0, failureCount := 0, successCount := 0 }

/-- Lines 188‑192: disable auto detection. -/
def stopAutoI2SerrorDetection (s : PreProcState) : PreProcState :=
  { s with autoDetectFlag := false, I2Scorrection := 0 }

/-- Lines 199‑203: manually set the correction mode, cancelling auto
detection. -/
def setI2SerrorCompensation (correction : ℤ) (s : PreProcState) : PreProcState :=
  { s with I2Scorrection := correction, autoDetectFlag := false }

/-- Line 210: set the swap flag. -/
def swapIQ (swap : Bool) (s : PreProcState) : PreProcState :=
  { s with IQswap := swap }

/-- A concrete transform used as the black-box FFT in witnesses and
counterexamples: whatever the input buffer, its output holds 10 at
element 20 and 5 at element 236, so the squared-magnitude spectrum has
power 100 in bin 10 and power 25 in its mirror bin 118 (and in the stale
region, 25 at buffer index 236). -/
def FA : (ℕ → ℚ) → (ℕ → ℚ) :=
  fun _ => fun j => if j = 20 then 10 else if j = 236 then 5 else 0

/-- Fold a tick over a list of (optional) block pairs: a run of
consecutive ticks with no intervening control call. -/
def runTicks (cfg : Config) (F : (ℕ → ℚ) → (ℕ → ℚ)) (s : PreProcState)
    (l : List (Option (ℕ → ℤ) × Option (ℕ → ℤ))) : PreProcState :=
  l.foldl (fun st p => (update cfg F st p.1 p.2).1) s

/-! ### The shift loop's closed form -/

/-- The downward copy loop `for (i = k; i > 0; i--) data[i] = data[i-1]`
moves every sample with index `1 ≤ j ≤ k` up from index `j - 1` and
leaves the rest (in particular index 0) untouched. -/
theorem delayLoop_apply (b : ℕ → ℤ) : ∀ (k j : ℕ),
    delayLoop b k j = if 1 ≤ j ∧ j ≤ k then b (j - 1) else b j := by
  intro k
  induction k generalizing b with
  | zero =>
    intro j
    simp only [delayLoop]
    rw [if_neg]
    omega
  | succ k ih =>
    intro j
    show delayLoop (fun j => if j = k + 1 then b k else b j) k j = _
    rw [ih]
    split_ifs <;> first | rfl | omega | (congr 1; omega)

/-! ### The scan loop's invariants -/

/-- Master invariant of the scan loop over any index list: the first
accumulator component collects the sum of the visited powers, the
running maximum never decreases, it dominates every visited power, and
either nothing ever exceeded the incoming maximum (so maximum and line
are unchanged) or the final line is a visited index whose power is the
final maximum, strictly above the incoming one. -/
theorem scanFold_props (pw : ℕ → ℚ) (l : List ℕ) :
    ∀ acc : ℚ × ℚ × ℕ,
      (l.foldl (scanStep pw) acc).1 = acc.1 + (l.map pw).sum ∧
      acc.2.1 ≤ (l.foldl (scanStep pw) acc).2.1 ∧
      (∀ i ∈ l, pw i ≤ (l.foldl (scanStep pw) acc).2.1) ∧
      (((l.foldl (scanStep pw) acc).2.1 = acc.2.1 ∧
          (l.foldl (scanStep pw) acc).2.2 = acc.2.2) ∨
        ((l.foldl (scanStep pw) acc).2.2 ∈ l ∧
          pw (l.foldl (scanStep pw) acc).2.2 = (l.foldl (scanStep pw) acc).2.1 ∧
          acc.2.1 < (l.foldl (scanStep pw) acc).2.1)) := by
  induction l with
  | nil => intro acc; simp
  | cons a t ih =>
    intro acc
    rw [List.foldl_cons]
    obtain ⟨ih1, ih2, ih3, ih4⟩ := ih (scanStep pw acc a)
    by_cases h : pw a > acc.2.1
    · have hstep : scanStep pw acc a = (acc.1 + pw a, pw a, a) := by
        simp [scanStep, h]
      rw [hstep] at ih1 ih2 ih3 ih4 ⊢
      refine ⟨by rw [ih1]; simp [add_assoc], le_trans (le_of_lt h) ih2, ?_, ?_⟩
      · intro i hi
        rcases List.mem_cons.1 hi with rfl | hit
        · exact ih2
        · exact ih3 i hit
      · rcases ih4 with ⟨hP, hL⟩ | ⟨hmem, hval, hlt⟩
        · exact Or.inr ⟨by rw [hL]; exact List.mem_cons_self a t,
            by rw [hL, hP], by rw [hP]; exact h⟩
        · exact Or.inr ⟨List.mem_cons_of_mem a hmem, hval, lt_trans h hlt⟩
    · have hstep : scanStep pw acc a = (acc.1 + pw a, acc.2.1, acc.2.2) := by
        simp [scanStep, h]
      rw [hstep] at ih1 ih2 ih3 ih4 ⊢
      refine ⟨by rw [ih1]; simp [add_assoc], ih2, ?_, ?_⟩
      · intro i hi
        rcases List.mem_cons.1 hi with rfl | hit
        · exact le_trans (not_lt.1 h) ih2
        · exact ih3 i hit
      · rcases ih4 with ⟨hP, hL⟩ | ⟨hmem, hval, hlt⟩
        · exact Or.inl ⟨hP, hL⟩
        · exact Or.inr ⟨List.mem_cons_of_mem a hmem, hval, hlt⟩

/-- Membership in the scanned window. -/
theorem mem_scanList (i : ℕ) : i ∈ scanList ↔ 5 ≤ i ∧ i < 123 := by
  have : scanList = List.range' 5 118 := rfl
  rw [this, List.mem_range'_1]

/-- `scanFold_props` read back through the source's names: the sum,
non-negativity and domination facts, and the dichotomy between an
untouched scan (all windowed powers non-positive at every comparison)
and an attained, strictly positive maximum. -/
theorem scan_props (pw : ℕ → ℚ) :
    (scan pw).1 = (scanList.map pw).sum ∧
    0 ≤ maxPower pw ∧
    (∀ i ∈ scanList, pw i ≤ maxPower pw) ∧
    ((maxPower pw = 0 ∧ maxLine pw = 0) ∨
      (maxLine pw ∈ scanList ∧ pw (maxLine pw) = maxPower pw ∧ 0 < maxPower pw)) := by
  obtain ⟨h1, h2, h3, h4⟩ := scanFold_props pw scanList (0, 0, 0)
  simp only [maxPower, maxLine, scan]
  exact ⟨h1.trans (zero_add _), h2, h3, h4⟩

/-- The scan's maximum dominates every windowed power. -/
theorem scan_le (pw : ℕ → ℚ) : ∀ i, 5 ≤ i → i < 123 → pw i ≤ maxPower pw := by
  intro i h1 h2
  exact (scan_props pw).2.2.1 i ((mem_scanList i).2 ⟨h1, h2⟩)

/-- `maximum_power` starts at 0 and only grows. -/
theorem scan_max_nonneg (pw : ℕ → ℚ) : 0 ≤ maxPower pw :=
  (scan_props pw).2.1

/-- When some windowed bin has strictly positive power, `maxLine` lies in
the window and attains the maximum. -/
theorem scan_attained (pw : ℕ → ℚ)
    (h : ∃ i, 5 ≤ i ∧ i < 123 ∧ 0 < pw i) :
    (5 ≤ maxLine pw ∧ maxLine pw < 123) ∧ pw (maxLine pw) = maxPower pw := by
  obtain ⟨i, hi1, hi2, hipos⟩ := h
  have hle := scan_le pw i hi1 hi2
  have hpos : 0 < maxPower pw := lt_of_lt_of_le hipos hle
  rcases (scan_props pw).2.2.2 with ⟨hP, _⟩ | ⟨hmem, hval, _⟩
  · exact absurd hP (ne_of_gt hpos)
  · exact ⟨(mem_scanList _).1 hmem, hval⟩

/-- When no windowed bin has positive power, the scan leaves both the
maximum (0) and the line index (0) at their initializations. -/
theorem scan_zero (pw : ℕ → ℚ)
    (h : ∀ i, 5 ≤ i → i < 123 → pw i ≤ 0) :
    maxLine pw = 0 ∧ maxPower pw = 0 := by
  rcases (scan_props pw).2.2.2 with ⟨hP, hL⟩ | ⟨hmem, hval, hlt⟩
  · exact ⟨hL, hP⟩
  · obtain ⟨h1, h2⟩ := (mem_scanList _).1 hmem
    have := h _ h1 h2
    rw [hval] at this
    exact absurd hlt (not_lt.2 this)

/-- The scan's line index never leaves `{0} ∪ [5, 123)`; in particular it
is at most 122. -/
theorem scan_line_le (pw : ℕ → ℚ) : maxLine pw ≤ 122 := by
  rcases (scan_props pw).2.2.2 with ⟨_, hL⟩ | ⟨hmem, _, _⟩
  · omega
  · have := ((mem_scanList _).1 hmem).2
    omega

/-! ### Frame facts about the detector and the tick -/

/-- The detector's state machine never touches the carry register. -/
theorem detectorUpdate_savedSample (cfg : Config) (pw : ℕ → ℚ) (s : PreProcState) :
    (detectorUpdate cfg pw s).savedSample = s.savedSample := by
  simp only [detectorUpdate]
  split_ifs <;> rfl

/-- The detector's state machine never touches the swap flag. -/
theorem detectorUpdate_IQswap (cfg : Config) (pw : ℕ → ℚ) (s : PreProcState) :
    (detectorUpdate cfg pw s).IQswap = s.IQswap := by
  simp only [detectorUpdate]
  split_ifs <;> rfl

/-- The detector never turns `autoDetectFlag` back on. -/
theorem detectorUpdate_flag_le (cfg : Config) (pw : ℕ → ℚ) (s : PreProcState)
    (h : s.autoDetectFlag = false) : (detectorUpdate cfg pw s).autoDetectFlag = false := by
  simp only [detectorUpdate]
  split_ifs <;> simp [h]

/-- When the strength gate of line 131 fails, the detector block reduces
to the freeze check of lines 150‑153. -/
theorem detectorUpdate_gateFail (cfg : Config) (pw : ℕ → ℚ) (s : PreProcState)
    (hgate : ¬ (maxPower pw > cfg.spectralAvgMultiplier * avgPower pw)) :
    detectorUpdate cfg pw s =
      if s.successCount > cfg.maxSuccessCount then { s with autoDetectFlag := false } else s := by
  simp only [detectorUpdate, if_neg hgate]

/-- The shape of a tick on which both blocks arrived. -/
theorem update_some_fst (cfg : Config) (F : (ℕ → ℚ) → (ℕ → ℚ)) (s : PreProcState)
    (bI bQ : ℕ → ℤ) :
    (update cfg F s (some bI) (some bQ)).1 =
      if s.autoDetectFlag then
        detectorUpdate cfg (tickPw F s bI bQ)
          { s with savedSample := (compensate s.I2Scorrection s.savedSample bI bQ).2 }
      else { s with savedSample := (compensate s.I2Scorrection s.savedSample bI bQ).2 } :=
  rfl

/-- A tick with detection already off changes nothing but the carry. -/
theorem update_disabled (cfg : Config) (F : (ℕ → ℚ) → (ℕ → ℚ)) (s : PreProcState)
    (inI inQ : Option (ℕ → ℤ)) (h : s.autoDetectFlag = false) :
    (update cfg F s inI inQ).1.autoDetectFlag = false ∧
    (update cfg F s inI inQ).1.I2Scorrection = s.I2Scorrection ∧
    (update cfg F s inI inQ).1.failureCount = s.failureCount ∧
    (update cfg F s inI inQ).1.successCount = s.successCount := by
  cases inI <;> cases inQ <;> simp [update, h]

/-! ### Closed forms of the compensator branches -/

/-- The +1 branch of lines 71‑78. -/
theorem compensate_eq_one (saved : ℤ) (bI bQ : ℕ → ℤ) :
    compensate 1 saved bI bQ =
      (((fun j => if j = 0 then saved else delayLoop bI (n_block - 1) j), bQ),
        bI (n_block - 1)) := by
  simp [compensate]

/-- The −1 branch of lines 79‑86 (note the fill into channel I). -/
theorem compensate_eq_negOne (saved : ℤ) (bI bQ : ℕ → ℤ) :
    compensate (-1) saved bI bQ =
      (((fun j => if j = 0 then saved else bI j), delayLoop bQ (n_block - 1)),
        bQ (n_block - 1)) := by
  norm_num [compensate]

/-- Any other mode leaves blocks and carry alone. -/
theorem compensate_eq_other (mode saved : ℤ) (bI bQ : ℕ → ℤ)
    (h1 : mode ≠ 1) (h2 : mode ≠ -1) :
    compensate mode saved bI bQ = ((bI, bQ), saved) := by
  simp [compensate, h1, h2]

/-- Shifting the all-zero block yields the all-zero block. -/
theorem delayLoop_zero (j : ℕ) : delayLoop (fun _ => (0 : ℤ)) (n_block - 1) j = 0 := by
  rw [delayLoop_apply]
  split_ifs <;> rfl

/-! ### The all-zero tick -/

/-- Interleaving two all-zero blocks fills the buffer with zeros. -/
theorem fillBuffer_zero : fillBuffer (fun _ => 0) (fun _ => 0) = fun _ => (0 : ℚ) := by
  funext j
  simp only [fillBuffer]
  split_ifs <;> norm_num

/-- Squared magnitudes of an all-zero buffer. -/
theorem magSquared_zero (i : ℕ) : magSquared (fun _ => (0 : ℚ)) i = 0 := by
  simp [magSquared]

/-- The scan of the zero spectrum: untouched maximum and line. -/
theorem scan_of_zero : maxLine (magSquared (fun _ => (0 : ℚ))) = 0 ∧
    maxPower (magSquared (fun _ => (0 : ℚ))) = 0 :=
  scan_zero _ (fun i _ _ => le_of_eq (magSquared_zero i))

/-- The zero spectrum's average power is 0. -/
theorem avg_of_zero : avgPower (magSquared (fun _ => (0 : ℚ))) = 0 := by
  unfold avgPower
  rw [(scan_props _).1, List.sum_eq_zero, zero_div]
  intro x hx
  obtain ⟨i, _, rfl⟩ := List.mem_map.1 hx
  exact magSquared_zero i

/-- On the zero spectrum the strength gate of line 131 fails, whatever
the configured multiplier. -/
theorem gate_fails_on_zero (q : ℚ) :
    ¬ (maxPower (magSquared (fun _ => (0 : ℚ))) >
        q * avgPower (magSquared (fun _ => (0 : ℚ)))) := by
  rw [scan_of_zero.2, avg_of_zero, mul_zero]
  exact lt_irrefl 0

/-! ### Freeze and runs -/

/-- The freeze check of lines 150‑153, applied to any intermediate
state: if the final success count still exceeds the limit, the flag was
cleared. -/
theorem freezeStep_flag (cfg : Config) (s1 : PreProcState)
    (h : (if s1.successCount > cfg.maxSuccessCount then
        { s1 with autoDetectFlag := false } else s1).successCount > cfg.maxSuccessCount) :
    (if s1.successCount > cfg.maxSuccessCount then
        { s1 with autoDetectFlag := false } else s1).autoDetectFlag = false := by
  by_cases hc : s1.successCount > cfg.maxSuccessCount
  · simp [hc]
  · rw [if_neg hc] at h
    exact absurd h hc

/-- If a detector pass ends with the success count above the limit, it
has turned detection off. -/
theorem detectorUpdate_freeze (cfg : Config) (pw : ℕ → ℚ) (s : PreProcState)
    (h : (detectorUpdate cfg pw s).successCount > cfg.maxSuccessCount) :
    (detectorUpdate cfg pw s).autoDetectFlag = false :=
  freezeStep_flag cfg _ h

/-- With detection off, any run of ticks keeps it off and never touches
the correction mode. -/
theorem runTicks_disabled (cfg : Config) (F : (ℕ → ℚ) → (ℕ → ℚ))
    (l : List (Option (ℕ → ℤ) × Option (ℕ → ℤ))) :
    ∀ s : PreProcState, s.autoDetectFlag = false →
      (runTicks cfg F s l).autoDetectFlag = false ∧
      (runTicks cfg F s l).I2Scorrection = s.I2Scorrection := by
  induction l with
  | nil => intro s h; exact ⟨h, rfl⟩
  | cons p t ih =>
    intro s h
    have hd := update_disabled cfg F s p.1 p.2 h
    obtain ⟨ih1, ih2⟩ := ih (update cfg F s p.1 p.2).1 hd.1
    exact ⟨ih1, ih2.trans hd.2.1⟩

/-- Compensating a pair of all-zero blocks under `mode = 0 ∨ carry = 0`
(the state after `startAutoI2SerrorDetection`) yields all-zero blocks,
and the new carry is 0 or the mode was 0. -/
theorem compensate_zero_blocks (s : PreProcState)
    (hinv : s.I2Scorrection = 0 ∨ s.savedSample = 0) :
    (((compensate s.I2Scorrection s.savedSample (fun _ => 0) (fun _ => 0)).1).1 =
      (fun _ => (0 : ℤ))) ∧
    (((compensate s.I2Scorrection s.savedSample (fun _ => 0) (fun _ => 0)).1).2 =
      (fun _ => (0 : ℤ))) ∧
    ((compensate s.I2Scorrection s.savedSample (fun _ => 0) (fun _ => 0)).2 = 0 ∨
      ((compensate s.I2Scorrection s.savedSample (fun _ => 0) (fun _ => 0)).2 = s.savedSample ∧
        s.I2Scorrection = 0)) := by
  rcases hinv with hm | hs0
  · rw [hm, compensate_eq_other 0 s.savedSample _ _ (by norm_num) (by norm_num)]
    exact ⟨rfl, rfl, Or.inr ⟨rfl, rfl⟩⟩
  · by_cases h1 : s.I2Scorrection = 1
    · rw [h1, hs0, compensate_eq_one]
      refine ⟨?_, rfl, Or.inl rfl⟩
      funext j
      simp [delayLoop_zero]
    · by_cases h2 : s.I2Scorrection = -1
      · rw [h2, hs0, compensate_eq_negOne]
        refine ⟨?_, ?_, Or.inl rfl⟩
        · funext j; simp
        · funext j; simp [delayLoop_zero]
      · rw [compensate_eq_other _ _ _ _ h1 h2, hs0]
        exact ⟨rfl, rfl, Or.inl rfl⟩

/-- On compensated all-zero blocks the detector's power buffer is the
zero spectrum. -/
theorem tickPw_zero (F : (ℕ → ℚ) → (ℕ → ℚ)) (s : PreProcState)
    (hF : F (fun _ => 0) = fun _ => 0)
    (hinv : s.I2Scorrection = 0 ∨ s.savedSample = 0) :
    tickPw F s (fun _ => 0) (fun _ => 0) = magSquared (fun _ => (0 : ℚ)) := by
  unfold tickPw tickPower
  rw [(compensate_zero_blocks s hinv).1, (compensate_zero_blocks s hinv).2.1,
    fillBuffer_zero, hF]

/-- One all-zero tick: provided the transform maps the zero buffer to
the zero buffer and the state satisfies `mode = 0 ∨ carry = 0` (as after
`startAutoI2SerrorDetection`), the correction mode and both counters are
untouched and the side condition is preserved. -/
theorem zero_tick (cfg : Config) (F : (ℕ → ℚ) → (ℕ → ℚ)) (s : PreProcState)
    (hF : F (fun _ => 0) = fun _ => 0)
    (hinv : s.I2Scorrection = 0 ∨ s.savedSample = 0) :
    (update cfg F s (some fun _ => 0) (some fun _ => 0)).1.I2Scorrection = s.I2Scorrection ∧
    ((update cfg F s (some fun _ => 0) (some fun _ => 0)).1.I2Scorrection = 0 ∨
      (update cfg F s (some fun _ => 0) (some fun _ => 0)).1.savedSample = 0) ∧
    (update cfg F s (some fun _ => 0) (some fun _ => 0)).1.failureCount = s.failureCount ∧
    (update cfg F s (some fun _ => 0) (some fun _ => 0)).1.successCount = s.successCount := by
  have hmain := compensate_zero_blocks s hinv
  have htp : tickPw F s (fun _ => 0) (fun _ => 0) = magSquared (fun _ => (0 : ℚ)) :=
    tickPw_zero F s hF hinv
  have hdet : ∀ s1 : PreProcState,
      (detectorUpdate cfg (tickPw F s (fun _ => 0) (fun _ => 0)) s1).I2Scorrection =
        s1.I2Scorrection ∧
      (detectorUpdate cfg (tickPw F s (fun _ => 0) (fun _ => 0)) s1).savedSample =
        s1.savedSample ∧
      (detectorUpdate cfg (tickPw F s (fun _ => 0) (fun _ => 0)) s1).failureCount =
        s1.failureCount ∧
      (detectorUpdate cfg (tickPw F s (fun _ => 0) (fun _ => 0)) s1).successCount =
        s1.successCount := by
    intro s1
    rw [htp, detectorUpdate_gateFail cfg _ s1 (gate_fails_on_zero cfg.spectralAvgMultiplier)]
    split_ifs <;> exact ⟨rfl, rfl, rfl, rfl⟩
  rw [update_some_fst]
  cases hEn : s.autoDetectFlag
  · rw [if_neg Bool.false_ne_true]
    refine ⟨rfl, ?_, rfl, rfl⟩
    rcases hmain.2.2 with hc | ⟨hc, hm0⟩
    · exact Or.inr hc
    · exact Or.inl hm0
  · rw [if_pos rfl]
    refine ⟨(hdet _).1, ?_, (hdet _).2.2.1, (hdet _).2.2.2⟩
    rcases hmain.2.2 with hc | ⟨hc, hm0⟩
    · exact Or.inr (((hdet _).2.1).trans hc)
    · exact Or.inl (((hdet _).1).trans hm0)

/-- A run of all-zero ticks never changes the correction mode. -/
theorem zero_run (cfg : Config) (F : (ℕ → ℚ) → (ℕ → ℚ))
    (hF : F (fun _ => 0) = fun _ => 0) :
    ∀ (n : ℕ) (s : PreProcState), s.I2Scorrection = 0 ∨ s.savedSample = 0 →
      (runTicks cfg F s
          (List.replicate n (some fun _ => 0, some fun _ => 0))).I2Scorrection =
        s.I2Scorrection := by
  intro n
  induction n with
  | zero => intro s _; rfl
  | succ n ih =>
    intro s hinv
    have hz := zero_tick cfg F s hF hinv
    show (runTicks cfg F (update cfg F s (some fun _ => 0) (some fun _ => 0)).1
        (List.replicate n (some fun _ => 0, some fun _ => 0))).I2Scorrection = _
    rw [ih _ hz.2.1, hz.1]

/-! ### The gate-pass path of the state machine -/

/-- When the strength gate passes, the counters and the mode leave the
detector exactly as lines 132‑149 compute them: the failure counter from
the verdict, then the advance check, then the success increment. -/
theorem detectorUpdate_gatePass_fields (cfg : Config) (pw : ℕ → ℚ) (s : PreProcState)
    (hgate : maxPower pw > cfg.spectralAvgMultiplier * avgPower pw) :
    (detectorUpdate cfg pw s).failureCount =
      (advanceCheck cfg.maxFailureCount
        ((if imbalance_ratio pw < cfg.minImbalanceRatio then s.failureCount + 1 else 0),
          s.successCount, s.I2Scorrection)).1 ∧
    (detectorUpdate cfg pw s).successCount =
      (advanceCheck cfg.maxFailureCount
        ((if imbalance_ratio pw < cfg.minImbalanceRatio then s.failureCount + 1 else 0),
          s.successCount, s.I2Scorrection)).2.1 + 1 ∧
    (detectorUpdate cfg pw s).I2Scorrection =
      (advanceCheck cfg.maxFailureCount
        ((if imbalance_ratio pw < cfg.minImbalanceRatio then s.failureCount + 1 else 0),
          s.successCount, s.I2Scorrection)).2.2 := by
  simp only [detectorUpdate, if_pos hgate]
  split_ifs <;> exact ⟨rfl, rfl, rfl⟩

/-- The same three fields read at tick level, for an enabled tick whose
gate passes. -/
theorem update_enabled_fields (cfg : Config) (F : (ℕ → ℚ) → (ℕ → ℚ)) (s : PreProcState)
    (bI bQ : ℕ → ℤ) (hEn : s.autoDetectFlag = true)
    (hgate : maxPower (tickPw F s bI bQ) >
      cfg.spectralAvgMultiplier * avgPower (tickPw F s bI bQ)) :
    (update cfg F s (some bI) (some bQ)).1.failureCount =
      (advanceCheck cfg.maxFailureCount
        ((if imbalance_ratio (tickPw F s bI bQ) < cfg.minImbalanceRatio
            then s.failureCount + 1 else 0), s.successCount, s.I2Scorrection)).1 ∧
    (update cfg F s (some bI) (some bQ)).1.successCount =
      (advanceCheck cfg.maxFailureCount
        ((if imbalance_ratio (tickPw F s bI bQ) < cfg.minImbalanceRatio
            then s.failureCount + 1 else 0), s.successCount, s.I2Scorrection)).2.1 + 1 ∧
    (update cfg F s (some bI) (some bQ)).1.I2Scorrection =
      (advanceCheck cfg.maxFailureCount
        ((if imbalance_ratio (tickPw F s bI bQ) < cfg.minImbalanceRatio
            then s.failureCount + 1 else 0), s.successCount, s.I2Scorrection)).2.2 := by
  rw [update_some_fst, if_pos hEn]
  exact detectorUpdate_gatePass_fields cfg (tickPw F s bI bQ)
    { s with savedSample := (compensate s.I2Scorrection s.savedSample bI bQ).2 } hgate

/-! ### Evaluating the fixture spectrum -/

/-- Whatever the tick's blocks and state, the fixture transform presents
the detector with the fixed spectrum. -/
theorem tickPw_FA (s : PreProcState) (bI bQ : ℕ → ℤ) :
    tickPw FA s bI bQ = magSquared (FA (fun _ => 0)) := rfl

/-- The fixture spectrum, bin by bin: 100 at bin 10, 25 at bin 118, and
the stale 5 at buffer index 236. -/
theorem magSquared_FA (i : ℕ) : magSquared (FA (fun _ => 0)) i =
    if i = 10 then 100 else if i = 118 then 25 else if i = 236 then 5 else 0 := by
  simp only [magSquared, FA]
  split_ifs <;> first | omega | norm_num

set_option maxRecDepth 8000 in
set_option maxHeartbeats 1600000 in
/-- The scan of the fixture spectrum: window sum 125, strongest line 10
at power 100. -/
theorem scan_FA : scan (magSquared (FA (fun _ => 0))) = (125, 100, 10) := by
  have he : magSquared (FA (fun _ => 0)) =
      (fun i => if i = 10 then 100 else if i = 118 then 25 else if i = 236 then 5
        else (0 : ℚ)) :=
    funext magSquared_FA
  rw [he]
  simp only [scan, scanList, minBin, n_FFT]
  norm_num [List.range', List.foldl, scanStep]

theorem maxPower_FA : maxPower (magSquared (FA (fun _ => 0))) = 100 := by
  unfold maxPower
  rw [scan_FA]

theorem maxLine_FA : maxLine (magSquared (FA (fun _ => 0))) = 10 := by
  unfold maxLine
  rw [scan_FA]

theorem avgPower_FA : avgPower (magSquared (FA (fun _ => 0))) = 125 / 118 := by
  unfold avgPower
  rw [scan_FA]

/-- The fixture's imbalance ratio: 100 over the mirror bin's 25. -/
theorem ratio_FA : imbalance_ratio (magSquared (FA (fun _ => 0))) = 4 := by
  unfold imbalance_ratio mirrorIndex
  rw [maxPower_FA, maxLine_FA, magSquared_FA]
  norm_num [n_FFT]

/-- The fixture passes the strength gate at multiplier 1. -/
theorem gate_FA : maxPower (magSquared (FA (fun _ => 0))) >
    (1 : ℚ) * avgPower (magSquared (FA (fun _ => 0))) := by
  rw [maxPower_FA, avgPower_FA]
  norm_num

/-! ### The claims -/

/-- C1: the claim says a DelayQ (−1) tick writes the carried sample into
Q[0], the delayed channel's own leading slot.  The code does not: at the
concrete input `savedSample = 7`, `I = (100, 101, …)`, `Q = (200, 201, …)`
the compensator's −1 branch (lines 79‑86) leaves `Q[0]` at its original
value 200 (duplicating it at indices 0 and 1 of the shifted block) and
writes the carry 7 into `I[0]` instead (line 84); the carry register does
get Q's original last sample, 200 + 127 = 327. -/
theorem delayQ_fill_target_eval :
    ((compensate (-1) 7 (fun i => 100 + (i : ℤ)) (fun i => 200 + (i : ℤ))).1.2) 0 = 200 ∧
    ((compensate (-1) 7 (fun i => 100 + (i : ℤ)) (fun i => 200 + (i : ℤ))).1.2) 1 = 200 ∧
    ((compensate (-1) 7 (fun i => 100 + (i : ℤ)) (fun i => 200 + (i : ℤ))).1.1) 0 = 7 ∧
    (compensate (-1) 7 (fun i => 100 + (i : ℤ)) (fun i => 200 + (i : ℤ))).2 = 327 := by
  refine ⟨?_, ?_, ?_, ?_⟩ <;> decide

/-- C6: a tick on which either channel's block is unavailable performs
nothing: the state (correction mode, carry register, detection state,
swap flag) is returned unchanged, nothing is emitted, and each channel
is released exactly as many times as it was acquired (once if acquired,
never otherwise). -/
theorem missing_block_skips_tick (cfg : Config) (F : (ℕ → ℚ) → (ℕ → ℚ))
    (s : PreProcState) (inI inQ : Option (ℕ → ℤ))
    (h : inI = none ∨ inQ = none) :
    update cfg F s inI inQ = (s, none) ∧
    releaseCount inI inQ =
      ((if inI.isSome then 1 else 0), (if inQ.isSome then 1 else 0)) := by
  constructor
  · rcases h with h | h
    · subst h; cases inQ <;> rfl
    · subst h; cases inI <;> rfl
  · cases inI <;> cases inQ <;> rfl

/-- Witness for C6 at a concrete input: the Q block missing. -/
theorem missing_block_skips_tick_witness :
    update ⟨1, 10, 3, 100⟩ (fun b => b) ⟨0, 0, true, 0, 0, false⟩ (some fun _ => 0) none =
      (⟨0, 0, true, 0, 0, false⟩, none) ∧
    releaseCount (some fun _ => (0 : ℤ)) (none : Option (ℕ → ℤ)) = (1, 0) := by
  have h := missing_block_skips_tick ⟨1, 10, 3, 100⟩ (fun b => b) ⟨0, 0, true, 0, 0, false⟩
    (some fun _ => 0) none (Or.inr rfl)
  simpa using h

/-- The +1 (DelayI) branch of the compensator, lines 71‑78: I is shifted
up by one, I[0] gets the carry, Q is untouched, and the new carry is I's
original last sample. -/
theorem compensate_delayI (saved : ℤ) (bI bQ : ℕ → ℤ) :
    (compensate 1 saved bI bQ).2 = bI 127 ∧
    ((compensate 1 saved bI bQ).1).2 = bQ ∧
    (((compensate 1 saved bI bQ).1).1) 0 = saved ∧
    (∀ j, 1 ≤ j → j ≤ 127 → (((compensate 1 saved bI bQ).1).1) j = bI (j - 1)) := by
  have h1 : compensate 1 saved bI bQ =
      (((fun j => if j = 0 then saved else delayLoop bI (n_block - 1) j), bQ),
        bI (n_block - 1)) := by
    simp [compensate]
  rw [h1]
  refine ⟨rfl, rfl, by simp, ?_⟩
  intro j hj1 hj2
  have hj0 : ¬ (j = 0) := by omega
  simp only [hj0, if_false]
  have hnb : n_block - 1 = 127 := rfl
  rw [hnb, delayLoop_apply, if_pos ⟨hj1, hj2⟩]

/-- A shifted block with the carry prepended and the new carry appended
is exactly the original block with the old carry prepended: nothing is
duplicated or dropped across the tick boundary. -/
theorem emit_stream_eq (eI bI : ℕ → ℤ) (saved : ℤ)
    (h0 : eI 0 = saved) (hs : ∀ i, 1 ≤ i → i ≤ 127 → eI i = bI (i - 1)) :
    (List.range 128).map eI ++ [bI 127] = saved :: (List.range 128).map bI := by
  apply List.ext_getElem
  · simp
  · intro n h1 h2
    simp only [List.length_append, List.length_map, List.length_range,
      List.length_cons] at h1 h2
    rcases Nat.lt_or_ge n 128 with hn | hn
    · rw [List.getElem_append_left (by simpa using hn)]
      rcases Nat.eq_zero_or_pos n with rfl | hpos
      · simpa using h0
      · obtain ⟨m, rfl⟩ : ∃ m, n = m + 1 := ⟨n - 1, by omega⟩
        simp only [List.getElem_map, List.getElem_range, List.getElem_cons_succ]
        rw [hs (m + 1) (by omega) (by omega)]
        simp
    · have hn128 : n = 128 := by omega
      subst hn128
      rw [List.getElem_append_right (by simp)]
      simp

/-- C2: on a DelayI (+1) tick the emitted I block (channel 0, or channel
1 when the swap flag routes I there) satisfies `I[i] = original I[i-1]`
for `1 ≤ i ≤ 127`, its leading slot `I[0]` carries the register value
left by the previous tick (the seed on the first tick), and the register
leaves the tick holding the original `I[127]`; concatenating the emitted
block with the outgoing carry reproduces the incoming carry followed by
the original block, so no I sample is duplicated or dropped across the
tick boundary. -/
theorem delayI_carry_correct (cfg : Config) (F : (ℕ → ℚ) → (ℕ → ℚ)) (s : PreProcState)
    (bI bQ : ℕ → ℤ) (hmode : s.I2Scorrection = 1) :
    ∃ p : (ℕ → ℤ) × (ℕ → ℤ),
      (update cfg F s (some bI) (some bQ)).2 = some p ∧
      (if s.IQswap then p.2 else p.1) 0 = s.savedSample ∧
      (∀ i, 1 ≤ i → i ≤ 127 → (if s.IQswap then p.2 else p.1) i = bI (i - 1)) ∧
      (update cfg F s (some bI) (some bQ)).1.savedSample = bI 127 ∧
      ((List.range 128).map (if s.IQswap then p.2 else p.1)) ++
          [(update cfg F s (some bI) (some bQ)).1.savedSample] =
        s.savedSample :: (List.range 128).map bI := by
  obtain ⟨hc2, hcQ, hc0, hcs⟩ := compensate_delayI s.savedSample bI bQ
  have hsaved : (update cfg F s (some bI) (some bQ)).1.savedSample = bI 127 := by
    rw [update_some_fst, hmode]
    cases hEn : s.autoDetectFlag <;> simp [detectorUpdate_savedSample, hc2]
  have hswap2 : (update cfg F s (some bI) (some bQ)).1.IQswap = s.IQswap := by
    rw [update_some_fst, hmode]
    cases hEn : s.autoDetectFlag <;> simp [detectorUpdate_IQswap]
  refine ⟨(if (update cfg F s (some bI) (some bQ)).1.IQswap then
      swapBlocks (compensate 1 s.savedSample bI bQ).1
    else (compensate 1 s.savedSample bI bQ).1), ?_, ?_⟩
  · show (update cfg F s (some bI) (some bQ)).2 = _
    simp only [update, hmode]
  · rw [hswap2]
    have heI : ∀ i, i ≤ 127 →
        (if s.IQswap then
            (if s.IQswap then swapBlocks (compensate 1 s.savedSample bI bQ).1
              else (compensate 1 s.savedSample bI bQ).1).2
          else
            (if s.IQswap then swapBlocks (compensate 1 s.savedSample bI bQ).1
              else (compensate 1 s.savedSample bI bQ).1).1) i =
          ((compensate 1 s.savedSample bI bQ).1).1 i := by
      intro i hi
      cases hq : s.IQswap <;> simp [swapBlocks]
      intro hcon
      omega
    refine ⟨by rw [heI 0 (by omega)]; exact hc0, ?_, hsaved, ?_⟩
    · intro i hi1 hi2
      rw [heI i hi2]
      exact hcs i hi1 hi2
    · rw [hsaved]
      apply emit_stream_eq
      · rw [heI 0 (by omega)]; exact hc0
      · intro i hi1 hi2
        rw [heI i hi2]
        exact hcs i hi1 hi2

/-- Witness for C2: a concrete DelayI tick with seed 9 and
`I = (0, 1, 2, …)`. -/
theorem delayI_carry_correct_witness :
    ∃ p : (ℕ → ℤ) × (ℕ → ℤ),
      (update ⟨1, 10, 3, 100⟩ (fun b => b) ⟨1, 9, false, 0, 0, false⟩
          (some fun i => (i : ℤ)) (some fun _ => 0)).2 = some p ∧
      (if (⟨1, 9, false, 0, 0, false⟩ : PreProcState).IQswap then p.2 else p.1) 0 =
        (⟨1, 9, false, 0, 0, false⟩ : PreProcState).savedSample ∧
      (∀ i, 1 ≤ i → i ≤ 127 →
        (if (⟨1, 9, false, 0, 0, false⟩ : PreProcState).IQswap then p.2 else p.1) i =
          ((i : ℤ) - 1)) ∧
      (update ⟨1, 10, 3, 100⟩ (fun b => b) ⟨1, 9, false, 0, 0, false⟩
          (some fun i => (i : ℤ)) (some fun _ => 0)).1.savedSample = 127 ∧
      ((List.range 128).map
            (if (⟨1, 9, false, 0, 0, false⟩ : PreProcState).IQswap then p.2 else p.1)) ++
          [(update ⟨1, 10, 3, 100⟩ (fun b => b) ⟨1, 9, false, 0, 0, false⟩
              (some fun i => (i : ℤ)) (some fun _ => 0)).1.savedSample] =
        (⟨1, 9, false, 0, 0, false⟩ : PreProcState).savedSample ::
          (List.range 128).map (fun i => (i : ℤ)) := by
  have h := delayI_carry_correct ⟨1, 10, 3, 100⟩ (fun b => b) ⟨1, 9, false, 0, 0, false⟩
    (fun i => (i : ℤ)) (fun _ => 0) rfl
  obtain ⟨p, h1, h2, h3, h4, h5⟩ := h
  refine ⟨p, h1, h2, fun i hi1 hi2 => ?_, h4, h5⟩
  rw [h3 i hi1 hi2]
  have : ((i - 1 : ℕ) : ℤ) = (i : ℤ) - 1 := by omega
  exact this

/-- C5: once the success streak exceeds its limit on an enabled tick,
`autoDetectFlag` is cleared on that very tick (lines 150‑153); and from
any state with detection off, every further run of ticks — with or
without missing blocks — keeps it off and leaves the correction mode
exactly where it was, until an explicit start/stop/manual-set call. -/
theorem freeze_idempotent (cfg : Config) (F : (ℕ → ℚ) → (ℕ → ℚ)) (s : PreProcState) :
    (∀ bI bQ : ℕ → ℤ, s.autoDetectFlag = true →
      (update cfg F s (some bI) (some bQ)).1.successCount > cfg.maxSuccessCount →
      (update cfg F s (some bI) (some bQ)).1.autoDetectFlag = false) ∧
    (s.autoDetectFlag = false →
      ∀ l : List (Option (ℕ → ℤ) × Option (ℕ → ℤ)),
        (runTicks cfg F s l).autoDetectFlag = false ∧
        (runTicks cfg F s l).I2Scorrection = s.I2Scorrection) := by
  constructor
  · intro bI bQ hEn hsc
    rw [update_some_fst, hEn, if_pos rfl] at hsc ⊢
    exact detectorUpdate_freeze _ _ _ hsc
  · intro hEn l
    exact runTicks_disabled cfg F l s hEn

/-- Witness for C5: with `maxSuccessCount = -1` the first all-zero tick
already crosses the limit and clears the flag; and a disabled state
survives a tick with a missing block unchanged. -/
theorem freeze_idempotent_witness :
    (update ⟨1, 10, 3, -1⟩ (fun b => b) ⟨0, 0, true, 0, 0, false⟩
        (some fun _ => 0) (some fun _ => 0)).1.autoDetectFlag = false ∧
    ((runTicks ⟨1, 10, 3, -1⟩ (fun b => b) ⟨0, 0, false, 0, 0, false⟩
        [(some fun _ => 0, none)]).autoDetectFlag = false ∧
      (runTicks ⟨1, 10, 3, -1⟩ (fun b => b) ⟨0, 0, false, 0, 0, false⟩
        [(some fun _ => 0, none)]).I2Scorrection =
        (⟨0, 0, false, 0, 0, false⟩ : PreProcState).I2Scorrection) := by
  constructor
  · have hz := zero_tick ⟨1, 10, 3, -1⟩ (fun b => b) ⟨0, 0, true, 0, 0, false⟩ rfl (Or.inl rfl)
    refine (freeze_idempotent ⟨1, 10, 3, -1⟩ (fun b => b) ⟨0, 0, true, 0, 0, false⟩).1
      (fun _ => 0) (fun _ => 0) rfl ?_
    rw [hz.2.2.2]
    decide
  · exact (freeze_idempotent ⟨1, 10, 3, -1⟩ (fun b => b) ⟨0, 0, false, 0, 0, false⟩).2 rfl _

/-- C9: on an enabled tick whose strength gate fails, the detector
withholds its verdict — both streak counters and the correction mode
leave the tick exactly as they entered it; and a run of all-zero input
ticks (the transform of the zero buffer being the zero buffer, and the
state being as `startAutoI2SerrorDetection` leaves it: mode 0, or a
cleared carry) never changes the correction mode. -/
theorem gate_fail_no_verdict (cfg : Config) (F : (ℕ → ℚ) → (ℕ → ℚ)) (s : PreProcState) :
    (∀ bI bQ : ℕ → ℤ, s.autoDetectFlag = true →
      ¬ (maxPower (tickPw F s bI bQ) >
          cfg.spectralAvgMultiplier * avgPower (tickPw F s bI bQ)) →
      (update cfg F s (some bI) (some bQ)).1.failureCount = s.failureCount ∧
      (update cfg F s (some bI) (some bQ)).1.successCount = s.successCount ∧
      (update cfg F s (some bI) (some bQ)).1.I2Scorrection = s.I2Scorrection) ∧
    ((F (fun _ => 0) = fun _ => 0) → (s.I2Scorrection = 0 ∨ s.savedSample = 0) →
      ∀ n : ℕ, (runTicks cfg F s
          (List.replicate n (some fun _ => 0, some fun _ => 0))).I2Scorrection =
        s.I2Scorrection) := by
  constructor
  · intro bI bQ hEn hgate
    rw [update_some_fst, hEn, if_pos rfl, detectorUpdate_gateFail cfg _ _ hgate]
    split_ifs <;> exact ⟨rfl, rfl, rfl⟩
  · intro hF hinv n
    exact zero_run cfg F hF n s hinv

/-- Witness for C9: ten all-zero ticks from a freshly started state
leave the counters and the mode alone. -/
theorem gate_fail_no_verdict_witness :
    ((update ⟨1, 10, 3, 100⟩ (fun b => b) ⟨0, 0, true, 0, 0, false⟩
        (some fun _ => 0) (some fun _ => 0)).1.failureCount =
        (⟨0, 0, true, 0, 0, false⟩ : PreProcState).failureCount ∧
      (update ⟨1, 10, 3, 100⟩ (fun b => b) ⟨0, 0, true, 0, 0, false⟩
        (some fun _ => 0) (some fun _ => 0)).1.successCount =
        (⟨0, 0, true, 0, 0, false⟩ : PreProcState).successCount ∧
      (update ⟨1, 10, 3, 100⟩ (fun b => b) ⟨0, 0, true, 0, 0, false⟩
        (some fun _ => 0) (some fun _ => 0)).1.I2Scorrection =
        (⟨0, 0, true, 0, 0, false⟩ : PreProcState).I2Scorrection) ∧
    (runTicks ⟨1, 10, 3, 100⟩ (fun b => b) ⟨0, 0, true, 0, 0, false⟩
        (List.replicate 10 (some fun _ => 0, some fun _ => 0))).I2Scorrection =
      (⟨0, 0, true, 0, 0, false⟩ : PreProcState).I2Scorrection := by
  constructor
  · refine (gate_fail_no_verdict ⟨1, 10, 3, 100⟩ (fun b => b)
      ⟨0, 0, true, 0, 0, false⟩).1 (fun _ => 0) (fun _ => 0) rfl ?_
    rw [tickPw_zero (fun b => b) ⟨0, 0, true, 0, 0, false⟩ rfl (Or.inl rfl)]
    exact gate_fails_on_zero _
  · exact (gate_fail_no_verdict ⟨1, 10, 3, 100⟩ (fun b => b)
      ⟨0, 0, true, 0, 0, false⟩).2 rfl (Or.inl rfl) 10

/-- The advance check fires exactly when the failure count exceeds the
limit. -/
theorem advanceCheck_pos (limit fc sc m : ℤ) (h : fc > limit) :
    advanceCheck limit (fc, sc, m) = (0, 0, cycleNext m) := by
  simp only [advanceCheck]
  rw [if_pos]
  exact h

theorem advanceCheck_neg (limit fc sc m : ℤ) (h : ¬ fc > limit) :
    advanceCheck limit (fc, sc, m) = (fc, sc, m) := by
  simp only [advanceCheck]
  rw [if_neg]
  exact h

/-- C4: while detection is enabled, the correction mode advances only at
a failure-limit crossing, and then by exactly one step of the fixed cycle
−1 → 0 → +1 → −1; at that advance (lines 139‑147) both streak counters
are reset to 0 — after which line 148's unconditional increment leaves
the success counter at 1 by the end of the tick — and on any tick
without such a crossing the mode is unchanged. -/
theorem mode_cycling (cfg : Config) (F : (ℕ → ℚ) → (ℕ → ℚ)) (s : PreProcState)
    (bI bQ : ℕ → ℤ) (hEn : s.autoDetectFlag = true) :
    (∀ fc sc m : ℤ, fc > cfg.maxFailureCount →
      advanceCheck cfg.maxFailureCount (fc, sc, m) = (0, 0, cycleNext m)) ∧
    (cycleNext (-1) = 0 ∧ cycleNext 0 = 1 ∧ cycleNext 1 = -1) ∧
    (maxPower (tickPw F s bI bQ) >
        cfg.spectralAvgMultiplier * avgPower (tickPw F s bI bQ) →
      imbalance_ratio (tickPw F s bI bQ) < cfg.minImbalanceRatio →
      s.failureCount + 1 > cfg.maxFailureCount →
      (update cfg F s (some bI) (some bQ)).1.I2Scorrection = cycleNext s.I2Scorrection ∧
      (update cfg F s (some bI) (some bQ)).1.failureCount = 0 ∧
      (update cfg F s (some bI) (some bQ)).1.successCount = 1) ∧
    (¬ (maxPower (tickPw F s bI bQ) >
          cfg.spectralAvgMultiplier * avgPower (tickPw F s bI bQ) ∧
        (if imbalance_ratio (tickPw F s bI bQ) < cfg.minImbalanceRatio
          then s.failureCount + 1 else 0) > cfg.maxFailureCount) →
      (update cfg F s (some bI) (some bQ)).1.I2Scorrection = s.I2Scorrection) := by
  refine ⟨fun fc sc m h => advanceCheck_pos _ _ _ _ h, by decide, ?_, ?_⟩
  · intro hgate hbad hcross
    obtain ⟨hf, hs2, hm⟩ := update_enabled_fields cfg F s bI bQ hEn hgate
    rw [if_pos hbad] at hf hs2 hm
    rw [advanceCheck_pos _ _ _ _ hcross] at hf hs2 hm
    refine ⟨by rw [hm], by rw [hf], by rw [hs2]; norm_num⟩
  · intro hn
    by_cases hgate : maxPower (tickPw F s bI bQ) >
        cfg.spectralAvgMultiplier * avgPower (tickPw F s bI bQ)
    · have hcross : ¬ ((if imbalance_ratio (tickPw F s bI bQ) < cfg.minImbalanceRatio
          then s.failureCount + 1 else 0) > cfg.maxFailureCount) :=
        fun hc => hn ⟨hgate, hc⟩
      obtain ⟨_, _, hm⟩ := update_enabled_fields cfg F s bI bQ hEn hgate
      rw [advanceCheck_neg _ _ _ _ hcross] at hm
      rw [hm]
    · rw [update_some_fst, if_pos hEn, detectorUpdate_gateFail cfg _ _ hgate]
      split_ifs <;> rfl

/-- Witness for C4: at failure limit 3 with the streak already at 3, the
fixture's unacceptable verdict (ratio 4 below threshold 10) crosses the
limit; the mode advances 0 → 1 and the counters end the tick at 0 and
1. -/
theorem mode_cycling_witness :
    (update ⟨1, 10, 3, 100⟩ FA ⟨0, 0, true, 3, 5, false⟩
        (some fun _ => 0) (some fun _ => 0)).1.I2Scorrection =
      cycleNext (⟨0, 0, true, 3, 5, false⟩ : PreProcState).I2Scorrection ∧
    (update ⟨1, 10, 3, 100⟩ FA ⟨0, 0, true, 3, 5, false⟩
        (some fun _ => 0) (some fun _ => 0)).1.failureCount = 0 ∧
    (update ⟨1, 10, 3, 100⟩ FA ⟨0, 0, true, 3, 5, false⟩
        (some fun _ => 0) (some fun _ => 0)).1.successCount = 1 := by
  refine (mode_cycling ⟨1, 10, 3, 100⟩ FA ⟨0, 0, true, 3, 5, false⟩
      (fun _ => 0) (fun _ => 0) rfl).2.2.1 ?_ ?_ ?_
  · rw [tickPw_FA]
    exact gate_FA
  · rw [tickPw_FA, ratio_FA]
    exact show (4 : ℚ) < 10 by norm_num
  · decide

/-- C3 (amended): on a gated tick with an unacceptable verdict
(`imbalance_ratio < minImbalanceRatio`), the failure streak is
incremented — or reset to 0 when that increment crosses the failure
limit and the mode advances — but the success streak is NOT reset to 0:
line 148 increments it on every gated tick, so it ends the tick at its
previous value + 1 (at 1 right after an advance). -/
theorem unacceptable_verdict_counters (cfg : Config) (F : (ℕ → ℚ) → (ℕ → ℚ))
    (s : PreProcState) (bI bQ : ℕ → ℤ) (hEn : s.autoDetectFlag = true)
    (hgate : maxPower (tickPw F s bI bQ) >
      cfg.spectralAvgMultiplier * avgPower (tickPw F s bI bQ))
    (hbad : imbalance_ratio (tickPw F s bI bQ) < cfg.minImbalanceRatio) :
    (s.failureCount + 1 > cfg.maxFailureCount →
      (update cfg F s (some bI) (some bQ)).1.failureCount = 0 ∧
      (update cfg F s (some bI) (some bQ)).1.successCount = 1) ∧
    (¬ (s.failureCount + 1 > cfg.maxFailureCount) →
      (update cfg F s (some bI) (some bQ)).1.failureCount = s.failureCount + 1 ∧
      (update cfg F s (some bI) (some bQ)).1.successCount = s.successCount + 1) := by
  obtain ⟨hf, hs2, _⟩ := update_enabled_fields cfg F s bI bQ hEn hgate
  rw [if_pos hbad] at hf hs2
  constructor
  · intro hcross
    rw [advanceCheck_pos _ _ _ _ hcross] at hf hs2
    exact ⟨by rw [hf], by rw [hs2]; norm_num⟩
  · intro hcross
    rw [advanceCheck_neg _ _ _ _ hcross] at hf hs2
    exact ⟨by rw [hf], by rw [hs2]⟩

/-- C3 counterexample: configuration (multiplier 1, minimum ratio 10,
failure limit 3, success limit 100), state (mode 0, carry 0, enabled,
failure streak 0, success streak 5), and a tick whose spectrum has its
strongest line at bin 10 with power 100 against mirror power 25: the
gate passes (100 > 125/118) and the verdict is unacceptable (ratio
4 < 10), yet the success streak is not reset to 0 — it ends the tick at
6 (the failure streak at 1). -/
theorem unacceptable_verdict_cex :
    (update ⟨1, 10, 3, 100⟩ FA ⟨0, 0, true, 0, 5, false⟩
        (some fun _ => 0) (some fun _ => 0)).1.successCount = 6 ∧
    ¬ (update ⟨1, 10, 3, 100⟩ FA ⟨0, 0, true, 0, 5, false⟩
        (some fun _ => 0) (some fun _ => 0)).1.successCount = 0 ∧
    (update ⟨1, 10, 3, 100⟩ FA ⟨0, 0, true, 0, 5, false⟩
        (some fun _ => 0) (some fun _ => 0)).1.failureCount = 1 := by
  have hgate : maxPower (tickPw FA (⟨0, 0, true, 0, 5, false⟩ : PreProcState)
        (fun _ => 0) (fun _ => 0)) >
      (⟨1, 10, 3, 100⟩ : Config).spectralAvgMultiplier *
        avgPower (tickPw FA (⟨0, 0, true, 0, 5, false⟩ : PreProcState)
          (fun _ => 0) (fun _ => 0)) := by
    rw [tickPw_FA]
    exact gate_FA
  obtain ⟨hf, hs2, _⟩ := update_enabled_fields ⟨1, 10, 3, 100⟩ FA ⟨0, 0, true, 0, 5, false⟩
    (fun _ => 0) (fun _ => 0) rfl hgate
  rw [tickPw_FA, ratio_FA] at hf hs2
  rw [if_pos (show (4 : ℚ) < 10 by norm_num)] at hf hs2
  rw [advanceCheck_neg _ _ _ _ (by decide)] at hf hs2
  refine ⟨by rw [hs2]; decide, by rw [hs2]; decide, by rw [hf]; decide⟩

/-- Witness for C3's amended statement at the counterexample's input
(failure limit not crossed: 0 + 1 is not above 3). -/
theorem unacceptable_verdict_counters_witness :
    ¬ ((⟨0, 0, true, 0, 5, false⟩ : PreProcState).failureCount + 1 >
        (⟨1, 10, 3, 100⟩ : Config).maxFailureCount) ∧
    ((update ⟨1, 10, 3, 100⟩ FA ⟨0, 0, true, 0, 5, false⟩
        (some fun _ => 0) (some fun _ => 0)).1.failureCount =
      (⟨0, 0, true, 0, 5, false⟩ : PreProcState).failureCount + 1 ∧
    (update ⟨1, 10, 3, 100⟩ FA ⟨0, 0, true, 0, 5, false⟩
        (some fun _ => 0) (some fun _ => 0)).1.successCount =
      (⟨0, 0, true, 0, 5, false⟩ : PreProcState).successCount + 1) := by
  refine ⟨by decide, (unacceptable_verdict_counters ⟨1, 10, 3, 100⟩ FA
    ⟨0, 0, true, 0, 5, false⟩ (fun _ => 0) (fun _ => 0) rfl ?_ ?_).2 (by decide)⟩
  · rw [tickPw_FA]
    exact gate_FA
  · rw [tickPw_FA, ratio_FA]
    exact show (4 : ℚ) < 10 by norm_num

/-- C8 (amended): on every tick on which some scanned bin carries
strictly positive power, `maxLine` is an index of the window
[`minBin`, 128 − `minBin`) attaining the maximum windowed power,
`average_power` is the windowed sum divided by 118 = 128 − 2·`minBin`,
the imbalance ratio is `power[maxLine] / power[128 − maxLine]`, and the
ratio is compared against the threshold only when
`power[maxLine] > spectralAvgMultiplier · average_power` (on a failed
gate the state machine is bypassed entirely, save the freeze check).
When every windowed bin has zero power the code's `maxLine` instead
stays at its initialization 0, outside the window (see the
counterexample). -/
theorem detector_computation (cfg : Config) (F : (ℕ → ℚ) → (ℕ → ℚ))
    (bI bQ : ℕ → ℤ) (s : PreProcState) (pw : ℕ → ℚ)
    (_hpw : pw = tickPower F bI bQ)
    (hpos : ∃ i, 5 ≤ i ∧ i < 123 ∧ 0 < pw i) :
    (5 ≤ maxLine pw ∧ maxLine pw < 123) ∧
    (∀ i, 5 ≤ i → i < 123 → pw i ≤ pw (maxLine pw)) ∧
    maxPower pw = pw (maxLine pw) ∧
    avgPower pw = (scanList.map pw).sum / 118 ∧
    imbalance_ratio pw = pw (maxLine pw) / pw (128 - maxLine pw) ∧
    (¬ (maxPower pw > cfg.spectralAvgMultiplier * avgPower pw) →
      detectorUpdate cfg pw s =
        if s.successCount > cfg.maxSuccessCount then { s with autoDetectFlag := false }
        else s) ∧
    (maxPower pw > cfg.spectralAvgMultiplier * avgPower pw ↔
      pw (maxLine pw) > cfg.spectralAvgMultiplier * avgPower pw) := by
  obtain ⟨hwin, hatt⟩ := scan_attained pw hpos
  refine ⟨hwin, ?_, hatt.symm, ?_, ?_, ?_, ?_⟩
  · intro i h1 h2
    rw [hatt]
    exact scan_le pw i h1 h2
  · unfold avgPower
    rw [(scan_props pw).1]
  · unfold imbalance_ratio mirrorIndex
    rw [← hatt]
    rfl
  · exact detectorUpdate_gateFail cfg pw s
  · rw [hatt]

/-- C8 counterexample: on the all-zero tick (and the transform of a zero
buffer is zero, as for any discrete Fourier transform) every windowed
bin has zero power, so `maxLine` stays at its initialization 0 — which
is not an index of the scanned window [5, 123): the detector does not
compute "the index of maximum power over the window" on this tick. -/
theorem detector_computation_cex :
    maxLine (tickPower (fun b => b) (fun _ => 0) (fun _ => 0)) = 0 ∧
    ¬ (5 ≤ maxLine (tickPower (fun b => b) (fun _ => 0) (fun _ => 0)) ∧
        maxLine (tickPower (fun b => b) (fun _ => 0) (fun _ => 0)) < 123) := by
  have htp : tickPower (fun b => b) (fun _ => (0 : ℤ)) (fun _ => 0) =
      magSquared (fun _ => (0 : ℚ)) := by
    unfold tickPower
    rw [fillBuffer_zero]
  rw [htp]
  exact ⟨scan_of_zero.1, by rw [scan_of_zero.1]; omega⟩

/-- Witness for C8's amended statement on the fixture spectrum (bin 10
carries power 100 > 0). -/
theorem detector_computation_witness :
    (5 ≤ maxLine (magSquared (FA (fun _ => 0))) ∧
      maxLine (magSquared (FA (fun _ => 0))) < 123) ∧
    maxPower (magSquared (FA (fun _ => 0))) =
      magSquared (FA (fun _ => 0)) (maxLine (magSquared (FA (fun _ => 0)))) ∧
    imbalance_ratio (magSquared (FA (fun _ => 0))) =
      magSquared (FA (fun _ => 0)) (maxLine (magSquared (FA (fun _ => 0)))) /
        magSquared (FA (fun _ => 0)) (128 - maxLine (magSquared (FA (fun _ => 0)))) := by
  have h := detector_computation ⟨1, 10, 3, 100⟩ FA (fun _ => 0) (fun _ => 0)
    ⟨0, 0, true, 0, 5, false⟩ (magSquared (FA (fun _ => 0))) rfl
    ⟨10, by norm_num, by norm_num, by rw [magSquared_FA]; norm_num⟩
  exact ⟨h.1, h.2.2.1, h.2.2.2.2.1⟩

/-- C10: the mirror index `n_FFT − maxLine` that the ratio of line 129
reads lies inside the 128-bin power spectrum exactly when
`maxLine ≥ 1`; `maxLine` leaves its initialization 0 only when some
windowed bin has strictly positive power; and on an all-zero block pair
(under any transform that maps the zero buffer to the zero buffer, as
the FFT does) the tick's ratio reads buffer index 128 — one past the
last power bin — even though the strength gate fails for every
multiplier, the ratio being formed before the gate is tested. -/
theorem mirror_index_out_of_range (F : (ℕ → ℚ) → (ℕ → ℚ))
    (hF : F (fun _ => 0) = fun _ => 0) :
    (∀ pw : ℕ → ℚ, maxLine pw ≤ 122 ∧ (mirrorIndex pw < 128 ↔ 1 ≤ maxLine pw)) ∧
    (∀ pw : ℕ → ℚ, (∀ i, 5 ≤ i → i < 123 → pw i ≤ 0) → maxLine pw = 0) ∧
    (mirrorIndex (tickPower F (fun _ => 0) (fun _ => 0)) = 128 ∧
      ¬ mirrorIndex (tickPower F (fun _ => 0) (fun _ => 0)) < 128 ∧
      imbalance_ratio (tickPower F (fun _ => 0) (fun _ => 0)) =
        maxPower (tickPower F (fun _ => 0) (fun _ => 0)) /
          tickPower F (fun _ => 0) (fun _ => 0) 128 ∧
      ∀ q : ℚ, ¬ (maxPower (tickPower F (fun _ => 0) (fun _ => 0)) >
          q * avgPower (tickPower F (fun _ => 0) (fun _ => 0)))) := by
  have htp : tickPower F (fun _ => (0 : ℤ)) (fun _ => 0) =
      magSquared (fun _ => (0 : ℚ)) := by
    unfold tickPower
    rw [fillBuffer_zero, hF]
  have hn : n_FFT = 128 := rfl
  refine ⟨?_, ?_, ?_⟩
  · intro pw
    have h122 := scan_line_le pw
    refine ⟨h122, ?_⟩
    unfold mirrorIndex
    rw [hn]
    omega
  · intro pw h
    exact (scan_zero pw h).1
  · rw [htp]
    refine ⟨?_, ?_, ?_, fun q => gate_fails_on_zero q⟩
    · unfold mirrorIndex
      rw [scan_of_zero.1, hn]
    · unfold mirrorIndex
      rw [scan_of_zero.1, hn]
      omega
    · unfold imbalance_ratio mirrorIndex
      rw [scan_of_zero.1, hn]

/-- Witness for C10 with the identity transform (which fixes the zero
buffer). -/
theorem mirror_index_out_of_range_witness :
    maxLine (tickPower (fun b => b) (fun _ => 0) (fun _ => 0)) ≤ 122 ∧
    mirrorIndex (tickPower (fun b => b) (fun _ => 0) (fun _ => 0)) = 128 ∧
    ¬ mirrorIndex (tickPower (fun b => b) (fun _ => 0) (fun _ => 0)) < 128 := by
  have h := mirror_index_out_of_range (fun b => b) rfl
  exact ⟨(h.1 (tickPower (fun b => b) (fun _ => 0) (fun _ => 0))).1, h.2.2.1, h.2.2.2.1⟩

/-- C7: applying the channel swap of lines 159‑167 twice restores both
blocks at every index — in particular at each of the 128 sample
positions. -/
theorem swap_involution (p : (ℕ → ℤ) × (ℕ → ℤ)) (i : ℕ) :
    (swapBlocks (swapBlocks p)).1 i = p.1 i ∧ (swapBlocks (swapBlocks p)).2 i = p.2 i := by
  constructor <;> · simp only [swapBlocks]; split_ifs <;> rfl

end AudioSDRpreProcessor
